import Mathlib

/-!
# `scripts/check-env.js` of gold-price-tracker

A shallow embedding of the environment-check script.  The script is one linear
procedure whose behaviour depends only on what its probes return, so the
outside world is an `Env` of oracles and the script is a function from `Env`
to the list of effects it performs (in order) together with the way it ends.

* `execSync`, `fs.existsSync`, `process.env`, `os.platform()` and `path.join`
  are fields of `Env`;
* `try`/`catch`, `process.exit` and normal completion are the three
  constructors of `Step`, sequenced by `Script.bind`;
* the regular expression `/rustc (\d+)\.(\d+)/`, `String.prototype.trim` and
  `parseInt` on a run of digits are total functions on character lists.
-/

namespace CheckEnv

/-! ## The outside world -/

/-- Outcome of one `execSync(cmd)` call: the child's standard output decoded
by `.toString()`, or a thrown error of which the script can only observe the
`code` property (absent on most errors). -/
inductive ExecResult where
  | ok (stdout : String)
  | threw (code : Option String)
  deriving DecidableEq

/-- Everything the script asks of its surroundings. -/
structure Env where
  /-- Outcome of `child_process.execSync`, by command line. -/
  execSync : String → ExecResult
  /-- Value of `os.platform()`. -/
  platform : String
  /-- Value of `process.env[name]`; `none` is `undefined`. -/
  getenv : String → Option String
  /-- Result of `fs.existsSync`, which never throws. -/
  existsSync : String → Bool
  /-- Result of `path.join` on string segments (on anything else it throws,
  see `pathJoin`). -/
  joinSegments : List String → String

/-- One observable effect of the script. -/
inductive Event where
  | execSync (cmd : String)
  | readEnv (name : String)
  | existsSync (path : String)
  | log (msg : String)
  | error (msg : String)
  | warn (msg : String)
  deriving DecidableEq

/-- Process probes and filesystem probes, as opposed to console output and
environment reads. -/
def Event.isProbe : Event → Bool
  | .execSync _ => true
  | .existsSync _ => true
  | _ => false

/-- Console output of any of the three kinds. -/
def Event.isOutput : Event → Bool
  | .log _ => true
  | .error _ => true
  | .warn _ => true
  | _ => false

/-! ## Control flow -/

/-- How a piece of script ends: it completes with a value, an exception is
propagating (carrying the `code` of the thrown error), or `process.exit` has
ended the process. -/
inductive Step (α : Type) where
  | done (a : α)
  | threw (code : Option String)
  | exited (status : Nat)
  deriving DecidableEq

/-- A piece of script: the effects it performed and how it ended. -/
structure Script (α : Type) where
  trace : List Event
  step : Step α
  deriving DecidableEq

/-- Sequencing: what follows runs only after normal completion. -/
def Script.bind {α β : Type} (m : Script α) (f : α → Script β) : Script β :=
  match m.step with
  | .done a => ⟨m.trace ++ (f a).trace, (f a).step⟩
  | .threw c => ⟨m.trace, .threw c⟩
  | .exited s => ⟨m.trace, .exited s⟩

instance : Monad Script where
  pure a := ⟨[], .done a⟩
  bind := Script.bind

/-- The statement `try { body } catch (e) { handler }`: only a propagating
exception enters the handler, `process.exit` does not. -/
def Script.tryCatch {α : Type} (body : Script α) (handler : Option String → Script α) :
    Script α :=
  match body.step with
  | .threw c => ⟨body.trace ++ (handler c).trace, (handler c).step⟩
  | _ => body

/-- The call `process.exit(status)`. -/
def processExit {α : Type} (status : Nat) : Script α := ⟨[], .exited status⟩

/-- The call `console.log(msg)`. -/
def consoleLog (msg : String) : Script Unit := ⟨[.log msg], .done ()⟩

/-- The call `console.error(msg)`. -/
def consoleError (msg : String) : Script Unit := ⟨[.error msg], .done ()⟩

/-- The call `console.warn(msg)`. -/
def consoleWarn (msg : String) : Script Unit := ⟨[.warn msg], .done ()⟩

/-- The call `execSync(cmd).toString()`, or the error it throws. -/
def execSync (env : Env) (cmd : String) : Script String :=
  match env.execSync cmd with
  | .ok out => ⟨[.execSync cmd], .done out⟩
  | .threw c => ⟨[.execSync cmd], .threw c⟩

/-- The call `fs.existsSync(path)`. -/
def existsSync (env : Env) (path : String) : Script Bool :=
  ⟨[.existsSync path], .done (env.existsSync path)⟩

/-- The read `process.env[name]`. -/
def readEnv (env : Env) (name : String) : Script (Option String) :=
  ⟨[.readEnv name], .done (env.getenv name)⟩

/-- The call `path.join(base, ...rest)` where `base` may be `undefined`, on which
`path.join` throws a `TypeError` whose code is `ERR_INVALID_ARG_TYPE`. -/
def pathJoin (env : Env) (base : Option String) (rest : List String) : Script String :=
  match base with
  | some b => ⟨[], .done (env.joinSegments (b :: rest))⟩
  | none => ⟨[], .threw (some "ERR_INVALID_ARG_TYPE")⟩

/-! ## Strings -/

/-- The characters `String.prototype.trim` removes: ECMAScript `WhiteSpace`
(tab, VT, FF, the byte-order mark and the Unicode space separators) and
`LineTerminator` (LF, CR, LS, PS). -/
def isJsSpace (c : Char) : Bool :=
  c.toNat ∈ [0x09, 0x0A, 0x0B, 0x0C, 0x0D, 0x20, 0xA0, 0x1680, 0x2028, 0x2029,
    0x202F, 0x205F, 0x3000, 0xFEFF] || (0x2000 ≤ c.toNat && c.toNat ≤ 0x200A)

/-- The effect of `trim` on the characters of a string. -/
def trimChars (cs : List Char) : List Char :=
  ((cs.dropWhile isJsSpace).reverse.dropWhile isJsSpace).reverse

/-- The method call `s.trim()`. -/
def jsTrim (s : String) : String := String.mk (trimChars s.data)

/-- Match a literal at the head of the input and return what follows it. -/
def stripLit : List Char → List Char → Option (List Char)
  | [], cs => some cs
  | _ :: _, [] => none
  | l :: ls, c :: cs => if l = c then stripLit ls cs else none

/-- The regular expression `/rustc (\d+)\.(\d+)/` tried at the head of the
input; the result is the two capture groups.  Each `\d+` is greedy and
backtracking cannot help: after a shorter run the next character is a digit,
which is not `.`, and the second group ends the pattern. -/
def matchHere (cs : List Char) : Option (List Char × List Char) :=
  match stripLit "rustc ".data cs with
  | none => none
  | some rest =>
    let major := rest.takeWhile Char.isDigit
    match stripLit ".".data (rest.dropWhile Char.isDigit) with
    | none => none
    | some rest2 =>
      let minor := rest2.takeWhile Char.isDigit
      if major ≠ [] ∧ minor ≠ [] then some (major, minor) else none

/-- The regular expression tried at each start position from the left; the
first position that matches wins. -/
def searchFrom : List Char → Option (List Char × List Char)
  | [] => matchHere []
  | c :: cs =>
    match matchHere (c :: cs) with
    | some r => some r
    | none => searchFrom cs

/-- The call `s.match(/rustc (\d+)\.(\d+)/)`: `none` is `null`, otherwise groups 1
and 2 of the match. -/
def versionMatch (s : String) : Option (List Char × List Char) := searchFrom s.data

/-- The function `parseInt` on a non-empty run of ASCII digits.  JavaScript yields the
nearest double; rounding is monotone and 1 and 70 are doubles, so the
comparisons of the version gate agree with those on the exact value. -/
def parseInt (ds : List Char) : Nat := ds.foldl (fun n d => 10 * n + (d.toNat - 48)) 0

/-- JavaScript `a || b` on two values that are strings or `undefined`, the
second one evaluated only when the first is falsy (`undefined` or empty). -/
def orElseRead (a : Option String) (b : Script (Option String)) : Script (Option String) :=
  match a with
  | some s => if s ≠ "" then pure (some s) else b
  | none => b

/-! ## The script -/

/-- The version gate: `major < 1 || (major === 1 && minor < 70)`. -/
def tooOld (major minor : Nat) : Bool := major < 1 || (major = 1 && minor < 70)

/-- Lines 9-28: the Rust toolchain check. -/
def rustCheck (env : Env) : Script Unit :=
  Script.tryCatch
    (do
      let rustVersion := jsTrim (← execSync env "rustc --version")
      consoleLog ("检测到 Rust: " ++ rustVersion)
      match versionMatch rustVersion with
      | some (g1, g2) =>
        let major := parseInt g1
        let minor := parseInt g2
        if tooOld major minor then
          consoleError "Rust 版本过低，请升级至 1.70+"
          processExit 1
        else pure ()
      | none => pure ())
    (fun _ => do
      consoleLog "未检测到 Rust，尝试自动安装..."
      consoleLog "请访问 https://sh.rustup.rs 安装 Rust"
      processExit 1)

/-- The command line of the vswhere invocation (line 39). -/
def vswhereCmd (vswherePath : String) : String :=
  "\"" ++ vswherePath ++ "\" -latest -products * -requires Microsoft.VisualStudio.Component.VC.Tools.x86.x64 -property installationPath"

/-- Lines 36-47, strategy A; the result is the `found` flag after it. -/
def strategyA (env : Env) : Script Bool :=
  Script.tryCatch
    (do
      let x86 ← readEnv env "ProgramFiles(x86)"
      let base ← orElseRead x86 (readEnv env "ProgramFiles")
      let vswherePath ← pathJoin env base ["Microsoft Visual Studio", "Installer", "vswhere.exe"]
      if (← existsSync env vswherePath) then
        let output := jsTrim (← execSync env (vswhereCmd vswherePath))
        if output ≠ "" then
          consoleLog ("通过 vswhere 检测到 VS Build Tools: " ++ output)
          pure true
        else pure false
      else pure false)
    (fun _ => pure false)

/-- Lines 51-58: the fixed installation directories. -/
def commonPaths : List String :=
  ["C:\\Program Files (x86)\\Microsoft Visual Studio\\2022\\BuildTools",
   "C:\\Program Files (x86)\\Microsoft Visual Studio\\2019\\BuildTools",
   "C:\\Program Files (x86)\\Microsoft Visual Studio\\2017\\BuildTools",
   "C:\\Program Files\\Microsoft Visual Studio\\2022\\Community",
   "C:\\Program Files\\Microsoft Visual Studio\\2022\\Enterprise",
   "C:\\Program Files\\Microsoft Visual Studio\\2022\\Professional"]

/-- Lines 60-66: the loop over the paths, leaving at the first that exists;
the result is the `found` flag after it. -/
def scanPaths (env : Env) : List String → Script Bool
  | [] => pure false
  | p :: ps => do
    if (← existsSync env p) then
      consoleLog ("通过路径检测到 VS Build Tools: " ++ p)
      pure true
    else scanPaths env ps

/-- Lines 70-83, strategy C; the result is the `found` flag after it. -/
def strategyC (env : Env) : Script Bool :=
  Script.tryCatch
    (do
      let _ ← execSync env "cl"
      pure false)
    (fun code =>
      if code ≠ some "ENOENT" then do
        consoleLog "通过 PATH 检测到 cl.exe (MSVC)"
        pure true
      else pure false)

/-- Lines 32-93: the body of the `win32` block. -/
def buildToolsCheck (env : Env) : Script Unit := do
  consoleLog "正在检测 Windows 构建工具..."
  let found ← strategyA env
  let found ← if !found then scanPaths env commonPaths else pure found
  let found ← if !found then strategyC env else pure found
  if !found then
    consoleWarn "警告: 脚本未能自动检测到 VS C++ Build Tools。"
    consoleWarn "如果您确认已安装 \"使用 C++ 的桌面开发\" 和 \"MSVC v143\" 组件，请忽略此警告。"
    consoleWarn "若后续 \"npm run tauri dev\" 失败，请尝试重新安装或重启电脑。"
  else
    consoleLog "VS C++ Build Tools 检测通过。"

/-- The whole script. -/
def checkEnv (env : Env) : Script Unit := do
  consoleLog "开始环境检测..."
  rustCheck env
  if env.platform = "win32" then
    buildToolsCheck env
  consoleLog "环境检测通过！"

/-- How the process ends: with an exit status, or on an exception nobody
caught. -/
inductive Termination where
  | exit (status : Nat)
  | uncaught (code : Option String)
  deriving DecidableEq

/-- Falling off the end of the script is exit status 0. -/
def terminationOf : Step Unit → Termination
  | .done _ => .exit 0
  | .exited s => .exit s
  | .threw c => .uncaught c

/-- The effects of a run of the script, in order. -/
def runTrace (env : Env) : List Event := (checkEnv env).trace

/-- The way a run of the script ends. -/
def runEnd (env : Env) : Termination := terminationOf (checkEnv env).step

/-! ## Vocabulary of the statements -/

/-- Whether the version gate lets the trimmed `rustc --version` output through. -/
def gatePasses (rustVersion : String) : Bool :=
  match versionMatch rustVersion with
  | some (g1, g2) => !tooOld (parseInt g1) (parseInt g2)
  | none => true

/-- The value of `process.env['ProgramFiles(x86)'] || process.env.ProgramFiles`. -/
def programFilesBase (env : Env) : Option String :=
  match env.getenv "ProgramFiles(x86)" with
  | some s => if s ≠ "" then some s else env.getenv "ProgramFiles"
  | none => env.getenv "ProgramFiles"

/-- The environment reads that evaluating that expression performs. -/
def envReads (env : Env) : List Event :=
  match env.getenv "ProgramFiles(x86)" with
  | some s =>
    if s ≠ "" then [.readEnv "ProgramFiles(x86)"]
    else [.readEnv "ProgramFiles(x86)", .readEnv "ProgramFiles"]
  | none => [.readEnv "ProgramFiles(x86)", .readEnv "ProgramFiles"]

/-- The path of the vswhere executable under a program-files directory. -/
def vswherePathOf (env : Env) (base : String) : String :=
  env.joinSegments [base, "Microsoft Visual Studio", "Installer", "vswhere.exe"]

/-- The text contains an occurrence of `rustc <digits>.<digits>`. -/
def HasVersionPattern (cs : List Char) : Prop :=
  ∃ pre X Y post, cs = pre ++ ("rustc ".data ++ X ++ '.' :: Y ++ post) ∧
    X ≠ [] ∧ Y ≠ [] ∧ (∀ c ∈ X, c.isDigit = true) ∧ (∀ c ∈ Y, c.isDigit = true)

/-- Strategy A finds nothing. -/
def VswhereFindsNothing (env : Env) : Prop :=
  ∀ b, programFilesBase env = some b →
    env.existsSync (vswherePathOf env b) = false ∨
    (∃ code, env.execSync (vswhereCmd (vswherePathOf env b)) = .threw code) ∨
    (∃ out, env.execSync (vswhereCmd (vswherePathOf env b)) = .ok out ∧ jsTrim out = "")

/-- The three lines of the warning (lines 86-88). -/
def warningLines : List Event :=
  [.warn "警告: 脚本未能自动检测到 VS C++ Build Tools。",
   .warn "如果您确认已安装 \"使用 C++ 的桌面开发\" 和 \"MSVC v143\" 组件，请忽略此警告。",
   .warn "若后续 \"npm run tauri dev\" 失败，请尝试重新安装或重启电脑。"]

/-- The build-tools-passed message (line 92). -/
def passedLine : Event := .log "VS C++ Build Tools 检测通过。"

/-- The final success message (line 96). -/
def successLine : Event := .log "环境检测通过！"

/-- The first line of output (line 6). -/
def startLine : Event := .log "开始环境检测..."

/-- The line announcing the build-tools detection (line 32). -/
def checkingLine : Event := .log "正在检测 Windows 构建工具..."

/-- The line reporting the detected compiler (line 11). -/
def detectedLine (rustVersion : String) : Event := .log ("检测到 Rust: " ++ rustVersion)

/-- A concrete environment: the outcomes of `rustc --version`, of the vswhere
command and of `cl`, the platform, the two program-files variables and the
list of paths that exist; `path.join` glues its segments with backslashes. -/
def sampleEnv (rustc : ExecResult) (platform : String) (x86 programFiles : Option String)
    (present : List String) (vswhere cl : ExecResult) : Env where
  execSync cmd := if cmd = "rustc --version" then rustc else if cmd = "cl" then cl else vswhere
  platform := platform
  getenv name :=
    if name = "ProgramFiles(x86)" then x86
    else if name = "ProgramFiles" then programFiles else none
  existsSync path := decide (path ∈ present)
  joinSegments segs := "\\".intercalate segs

/-- Windows, a recent compiler, no vswhere, none of the fixed directories,
and a `cl` probe of the given outcome. -/
def bareWindowsEnv (cl : ExecResult) : Env :=
  sampleEnv (.ok "rustc 1.75.0 (82e1608df 2023-12-21)\n") "win32"
    (some "C:\\Program Files (x86)") (some "C:\\Program Files") [] (.threw none) cl

/-- Windows, a recent compiler, vswhere installed and printing the given
text, one fixed directory present, `cl` not on the search path. -/
def vswhereEnv (vswhereOut : String) : Env :=
  sampleEnv (.ok "rustc 1.75.0 (82e1608df 2023-12-21)\n") "win32"
    (some "C:\\Program Files (x86)") (some "C:\\Program Files")
    ["C:\\Program Files (x86)\\Microsoft Visual Studio\\Installer\\vswhere.exe",
     "C:\\Program Files\\Microsoft Visual Studio\\2022\\Community"]
    (.ok vswhereOut) (.threw (some "ENOENT"))

/-! ## Sequencing lemmas -/

/-- A pure value completes at once. -/
@[simp] theorem pure_step {α : Type} (a : α) : (pure a : Script α).step = .done a := rfl

/-- A pure value has no effect. -/
@[simp] theorem pure_trace {α : Type} (a : α) : (pure a : Script α).trace = [] := rfl

/-- How a sequence ends. -/
@[simp] theorem bind_step {α β : Type} (m : Script α) (f : α → Script β) :
    (m >>= f).step =
      match m.step with
      | .done a => (f a).step
      | .threw c => .threw c
      | .exited s => .exited s := by
  show (Script.bind m f).step = _
  unfold Script.bind
  cases m.step <;> rfl

/-- The effects of a sequence. -/
@[simp] theorem bind_trace {α β : Type} (m : Script α) (f : α → Script β) :
    (m >>= f).trace =
      match m.step with
      | .done a => m.trace ++ (f a).trace
      | _ => m.trace := by
  show (Script.bind m f).trace = _
  unfold Script.bind
  cases m.step <;> rfl

/-- How a `try`/`catch` statement ends. -/
@[simp] theorem tryCatch_step {α : Type} (body : Script α) (handler : Option String → Script α) :
    (Script.tryCatch body handler).step =
      match body.step with
      | .threw c => (handler c).step
      | s => s := by
  unfold Script.tryCatch
  cases h : body.step <;> simp [h]

/-- The effects of a `try`/`catch` statement. -/
@[simp] theorem tryCatch_trace {α : Type} (body : Script α) (handler : Option String → Script α) :
    (Script.tryCatch body handler).trace =
      match body.step with
      | .threw c => body.trace ++ (handler c).trace
      | _ => body.trace := by
  unfold Script.tryCatch
  cases h : body.step <;> simp [h]

/-! ## What each part of the script does -/

/-- The compiler check when `rustc --version` throws. -/
theorem rustCheck_threw (env : Env) (code : Option String)
    (h : env.execSync "rustc --version" = .threw code) :
    rustCheck env = ⟨[.execSync "rustc --version", .log "未检测到 Rust，尝试自动安装...",
      .log "请访问 https://sh.rustup.rs 安装 Rust"], .exited 1⟩ := by
  simp [rustCheck, Script.tryCatch, execSync, h, consoleLog, processExit, bind, Script.bind]

/-- The compiler check when `rustc --version` runs: it completes after two
effects when the gate passes and exits with status 1 after a third otherwise. -/
theorem rustCheck_ok (env : Env) (out : String)
    (h : env.execSync "rustc --version" = .ok out) :
    rustCheck env =
      if gatePasses (jsTrim out) then
        ⟨[.execSync "rustc --version", .log ("检测到 Rust: " ++ jsTrim out)], .done ()⟩
      else
        ⟨[.execSync "rustc --version", .log ("检测到 Rust: " ++ jsTrim out),
          .error "Rust 版本过低，请升级至 1.70+"], .exited 1⟩ := by
  unfold gatePasses
  cases hm : versionMatch (jsTrim out) with
  | none =>
    simp [rustCheck, Script.tryCatch, execSync, h, consoleLog, bind, Script.bind, hm, pure]
  | some g =>
    obtain ⟨g1, g2⟩ := g
    cases ht : tooOld (parseInt g1) (parseInt g2) <;>
      simp [rustCheck, Script.tryCatch, execSync, h, consoleLog, consoleError, processExit,
        bind, Script.bind, hm, ht, pure]

/-- The loop of strategy B always completes, with `found` true exactly when
some path of the list exists. -/
theorem scanPaths_step (env : Env) (ps : List String) :
    (scanPaths env ps).step = .done (ps.any env.existsSync) := by
  induction ps with
  | nil => rfl
  | cons p ps ih =>
    cases hp : env.existsSync p <;>
      simp [scanPaths, existsSync, consoleLog, hp, ih]

/-- The loop of strategy B only checks paths of the list and logs one of them. -/
theorem scanPaths_probe (env : Env) (ps : List String) (e : Event)
    (he : e ∈ (scanPaths env ps).trace) : (∃ p ∈ ps, e = .existsSync p) ∨ ∃ p ∈ ps, e = .log ("通过路径检测到 VS Build Tools: " ++ p) := by
  induction ps with
  | nil => simp [scanPaths] at he
  | cons p ps ih =>
    cases hp : env.existsSync p <;>
      simp [scanPaths, existsSync, consoleLog, hp] at he
    · rcases he with he | he
      · left; exact ⟨p, by simp, he⟩
      · rcases ih he with ⟨q, hq, h⟩ | ⟨q, hq, h⟩
        · left; exact ⟨q, by simp [hq], h⟩
        · right; exact ⟨q, by simp [hq], h⟩
    · rcases he with he | he
      · left; exact ⟨p, by simp, he⟩
      · right; exact ⟨p, by simp, he⟩

/-- The loop of strategy B checks every path, in order, when none exists. -/
theorem scanPaths_none (env : Env) (ps : List String) (h : ∀ p ∈ ps, env.existsSync p = false) :
    scanPaths env ps = ⟨ps.map Event.existsSync, .done false⟩ := by
  induction ps with
  | nil => rfl
  | cons p ps ih =>
    have hp : env.existsSync p = false := h p (by simp)
    have ih2 := ih (fun q hq => h q (by simp [hq]))
    simp [scanPaths, existsSync, hp, ih2, bind, Script.bind]

/-- Strategy C, by outcome of the `cl` probe. -/
theorem strategyC_eq (env : Env) :
    strategyC env =
      match env.execSync "cl" with
      | .ok _ => ⟨[.execSync "cl"], .done false⟩
      | .threw code =>
        if code ≠ some "ENOENT" then
          ⟨[.execSync "cl", .log "通过 PATH 检测到 cl.exe (MSVC)"], .done true⟩
        else ⟨[.execSync "cl"], .done false⟩ := by
  cases h : env.execSync "cl" with
  | ok out => simp [strategyC, Script.tryCatch, execSync, h, bind, Script.bind, pure]
  | threw code =>
    by_cases hc : code = some "ENOENT" <;>
      simp [strategyC, Script.tryCatch, execSync, h, bind, Script.bind, pure, hc, consoleLog]

/-- Strategy A, by state of the environment and outcome of its probes. -/
theorem strategyA_eq (env : Env) :
    strategyA env =
      match programFilesBase env with
      | none => ⟨envReads env, .done false⟩
      | some b =>
        if env.existsSync (vswherePathOf env b) then
          match env.execSync (vswhereCmd (vswherePathOf env b)) with
          | .ok out =>
            if jsTrim out ≠ "" then
              ⟨envReads env ++ [.existsSync (vswherePathOf env b),
                .execSync (vswhereCmd (vswherePathOf env b)),
                .log ("通过 vswhere 检测到 VS Build Tools: " ++ jsTrim out)], .done true⟩
            else
              ⟨envReads env ++ [.existsSync (vswherePathOf env b),
                .execSync (vswhereCmd (vswherePathOf env b))], .done false⟩
          | .threw _ =>
            ⟨envReads env ++ [.existsSync (vswherePathOf env b),
              .execSync (vswhereCmd (vswherePathOf env b))], .done false⟩
        else ⟨envReads env ++ [.existsSync (vswherePathOf env b)], .done false⟩ := by
  unfold programFilesBase envReads vswherePathOf
  cases hx : env.getenv "ProgramFiles(x86)" with
  | none =>
    cases hp : env.getenv "ProgramFiles" with
    | none =>
      simp [strategyA, Script.tryCatch, readEnv, orElseRead, pathJoin, bind, Script.bind, pure,
        hx, hp]
    | some b =>
      cases he : env.existsSync (env.joinSegments
          [b, "Microsoft Visual Studio", "Installer", "vswhere.exe"]) with
      | false =>
        simp [strategyA, Script.tryCatch, readEnv, orElseRead, pathJoin, existsSync, bind,
          Script.bind, pure, hx, hp, he]
      | true =>
        cases hv : env.execSync (vswhereCmd (env.joinSegments
            [b, "Microsoft Visual Studio", "Installer", "vswhere.exe"])) with
        | threw c =>
          simp [strategyA, Script.tryCatch, readEnv, orElseRead, pathJoin, existsSync, execSync,
            bind, Script.bind, pure, hx, hp, he, hv]
        | ok out =>
          by_cases ho : jsTrim out = "" <;>
            simp [strategyA, Script.tryCatch, readEnv, orElseRead, pathJoin, existsSync,
              execSync, consoleLog, bind, Script.bind, pure, hx, hp, he, hv, ho]
  | some s =>
    by_cases hs : s = ""
    · cases hp : env.getenv "ProgramFiles" with
      | none =>
        simp [strategyA, Script.tryCatch, readEnv, orElseRead, pathJoin, bind, Script.bind,
          pure, hx, hs, hp]
      | some b =>
        cases he : env.existsSync (env.joinSegments
            [b, "Microsoft Visual Studio", "Installer", "vswhere.exe"]) with
        | false =>
          simp [strategyA, Script.tryCatch, readEnv, orElseRead, pathJoin, existsSync, bind,
            Script.bind, pure, hx, hs, hp, he]
        | true =>
          cases hv : env.execSync (vswhereCmd (env.joinSegments
              [b, "Microsoft Visual Studio", "Installer", "vswhere.exe"])) with
          | threw c =>
            simp [strategyA, Script.tryCatch, readEnv, orElseRead, pathJoin, existsSync, execSync,
              bind, Script.bind, pure, hx, hs, hp, he, hv]
          | ok out =>
            by_cases ho : jsTrim out = "" <;>
              simp [strategyA, Script.tryCatch, readEnv, orElseRead, pathJoin, existsSync,
                execSync, consoleLog, bind, Script.bind, pure, hx, hs, hp, he, hv, ho]
    · cases he : env.existsSync (env.joinSegments
          [s, "Microsoft Visual Studio", "Installer", "vswhere.exe"]) with
      | false =>
        simp [strategyA, Script.tryCatch, readEnv, orElseRead, pathJoin, existsSync, bind,
          Script.bind, pure, hx, hs, he]
      | true =>
        cases hv : env.execSync (vswhereCmd (env.joinSegments
            [s, "Microsoft Visual Studio", "Installer", "vswhere.exe"])) with
        | threw c =>
          simp [strategyA, Script.tryCatch, readEnv, orElseRead, pathJoin, existsSync, execSync,
            bind, Script.bind, pure, hx, hs, he, hv]
        | ok out =>
          by_cases ho : jsTrim out = "" <;>
            simp [strategyA, Script.tryCatch, readEnv, orElseRead, pathJoin, existsSync,
              execSync, consoleLog, bind, Script.bind, pure, hx, hs, he, hv, ho]

/-- Strategy A always completes: whatever its body throws is caught. -/
theorem strategyA_done (env : Env) : ∃ b, (strategyA env).step = .done b := by
  rw [strategyA_eq]
  repeat' split
  all_goals exact ⟨_, rfl⟩

/-- Strategy C always completes: whatever `cl` throws is caught. -/
theorem strategyC_done (env : Env) : ∃ b, (strategyC env).step = .done b := by
  rw [strategyC_eq]
  repeat' split
  all_goals exact ⟨_, rfl⟩

/-- The build-tools block always completes. -/
theorem buildToolsCheck_done (env : Env) : (buildToolsCheck env).step = .done () := by
  obtain ⟨a, ha⟩ := strategyA_done env
  obtain ⟨c, hc⟩ := strategyC_done env
  unfold buildToolsCheck
  cases a <;> cases hb : commonPaths.any env.existsSync <;> cases c <;>
    simp [ha, hb, hc, consoleLog, consoleWarn, scanPaths_step]

/-- The script ends the way the compiler check ends. -/
theorem checkEnv_step (env : Env) : (checkEnv env).step = (rustCheck env).step := by
  unfold checkEnv
  by_cases hw : env.platform = "win32" <;>
    cases hr : (rustCheck env).step <;>
      simp [hw, hr, consoleLog, buildToolsCheck_done]

/-- The version gate lets through exactly the versions from 1.70 on. -/
theorem tooOld_eq_false_iff (major minor : Nat) :
    tooOld major minor = false ↔ major > 1 ∨ (major = 1 ∧ minor ≥ 70) := by
  unfold tooOld
  simp only [Bool.or_eq_false_iff, Bool.and_eq_false_iff, decide_eq_false_iff_not]
  omega

/-! ## The regular expression finds exactly the occurrences of the pattern -/

/-- Stripping a literal succeeds exactly on the inputs that start with it. -/
theorem stripLit_eq_some (lit cs rest : List Char) :
    stripLit lit cs = some rest ↔ cs = lit ++ rest := by
  induction lit generalizing cs with
  | nil => simp [stripLit, eq_comm]
  | cons l ls ih =>
    cases cs with
    | nil => simp [stripLit]
    | cons c cs =>
      by_cases h : l = c
      · simp [stripLit, h, ih]
      · simp [stripLit, h]
        intro hc
        exact absurd hc.symm h

/-- A match at the head of the input is an occurrence of the pattern there. -/
theorem matchHere_sound (cs X Y : List Char) (h : matchHere cs = some (X, Y)) :
    ∃ post, cs = "rustc ".data ++ X ++ '.' :: Y ++ post ∧
      X ≠ [] ∧ Y ≠ [] ∧ (∀ c ∈ X, c.isDigit = true) ∧ (∀ c ∈ Y, c.isDigit = true) := by
  unfold matchHere at h
  cases h1 : stripLit "rustc ".data cs with
  | none => simp [h1] at h
  | some rest =>
    simp only [h1] at h
    cases h2 : stripLit ".".data (List.dropWhile Char.isDigit rest) with
    | none => simp [h2] at h
    | some rest2 =>
      simp only [h2] at h
      split at h
      · rename_i hne
        simp only [Option.some.injEq, Prod.mk.injEq] at h
        obtain ⟨hX, hY⟩ := h
        rw [stripLit_eq_some] at h1 h2
        refine ⟨rest2.dropWhile Char.isDigit, ?_, ?_, ?_, ?_, ?_⟩
        · have e1 := List.takeWhile_append_dropWhile Char.isDigit rest
          have e2 := List.takeWhile_append_dropWhile Char.isDigit rest2
          rw [h1, ← e1, h2, hX]
          have : ".".data ++ rest2 = '.' :: (Y ++ List.dropWhile Char.isDigit rest2) := by
            rw [← hY, e2]; rfl
          rw [this]
          simp
        · rw [← hX]; exact hne.1
        · rw [← hY]; exact hne.2
        · intro c hc; rw [← hX] at hc; exact List.mem_takeWhile_imp hc
        · intro c hc; rw [← hY] at hc; exact List.mem_takeWhile_imp hc
      · simp at h

/-- A match found by the search is an occurrence of the pattern in the input. -/
theorem searchFrom_sound (cs X Y : List Char) (h : searchFrom cs = some (X, Y)) :
    ∃ pre post, cs = pre ++ ("rustc ".data ++ X ++ '.' :: Y ++ post) ∧
      X ≠ [] ∧ Y ≠ [] ∧ (∀ c ∈ X, c.isDigit = true) ∧ (∀ c ∈ Y, c.isDigit = true) := by
  induction cs with
  | nil =>
    obtain ⟨post, hp, hr⟩ := matchHere_sound [] X Y h
    exact ⟨[], post, by simp at hp, hr⟩
  | cons c cs ih =>
    unfold searchFrom at h
    cases hm : matchHere (c :: cs) with
    | some r =>
      simp only [hm, Option.some.injEq] at h
      subst h
      obtain ⟨post, hp, hr⟩ := matchHere_sound _ X Y hm
      exact ⟨[], post, by simpa using hp, hr⟩
    | none =>
      simp only [hm] at h
      obtain ⟨pre, post, hp, hr⟩ := ih h
      exact ⟨c :: pre, post, by simp [hp], hr⟩

/-- Splitting off the leading digits goes through a run of digits. -/
theorem takeWhile_digits_append (X rest : List Char) (hX : ∀ c ∈ X, c.isDigit = true) :
    (X ++ rest).takeWhile Char.isDigit = X ++ rest.takeWhile Char.isDigit ∧
      (X ++ rest).dropWhile Char.isDigit = rest.dropWhile Char.isDigit := by
  induction X with
  | nil => simp
  | cons x xs ih =>
    have hx : x.isDigit = true := hX x (by simp)
    have := ih (fun c hc => hX c (by simp [hc]))
    simp [List.takeWhile_cons, List.dropWhile_cons, hx, this]

/-- An occurrence of the pattern at the head of the input is matched. -/
theorem matchHere_complete (X Y post : List Char) (hX : X ≠ []) (hY : Y ≠ [])
    (dX : ∀ c ∈ X, c.isDigit = true) (dY : ∀ c ∈ Y, c.isDigit = true) :
    matchHere ("rustc ".data ++ X ++ '.' :: Y ++ post) ≠ none := by
  have h1 : stripLit "rustc ".data ("rustc ".data ++ X ++ '.' :: Y ++ post)
      = some (X ++ ('.' :: Y ++ post)) := by
    rw [stripLit_eq_some]; simp
  have hdot : ('.' : Char).isDigit = false := by decide
  have t1 := takeWhile_digits_append X ('.' :: Y ++ post) dX
  have t2 := takeWhile_digits_append Y post dY
  have h2 : stripLit ".".data ('.' :: Y ++ post) = some (Y ++ post) := by
    rw [stripLit_eq_some]; rfl
  unfold matchHere
  simp only [h1, t1.1, t1.2]
  simp only [List.cons_append, List.dropWhile_cons, List.takeWhile_cons, hdot]
  simp only [Bool.false_eq_true, if_false]
  have h2b : stripLit ".".data ('.' :: (Y ++ post)) = some (Y ++ post) := h2
  simp only [h2b, t2.1]
  simp [hX, hY]

/-- A match at some position makes the search succeed. -/
theorem searchFrom_append (pre m : List Char) (hm : matchHere m ≠ none) :
    searchFrom (pre ++ m) ≠ none := by
  induction pre with
  | nil =>
    cases m with
    | nil => simpa [searchFrom] using hm
    | cons c cs =>
      show searchFrom (c :: cs) ≠ none
      unfold searchFrom
      cases hh : matchHere (c :: cs) with
      | none => exact absurd hh hm
      | some r => simp
  | cons p pre ih =>
    show searchFrom (p :: (pre ++ m)) ≠ none
    unfold searchFrom
    cases hh : matchHere (p :: (pre ++ m)) with
    | none => simpa using ih
    | some r => simp

/-- The search succeeds on every text with an occurrence of the pattern. -/
theorem searchFrom_complete (cs : List Char) (h : HasVersionPattern cs) :
    searchFrom cs ≠ none := by
  obtain ⟨pre, X, Y, post, hcs, hX, hY, dX, dY⟩ := h
  subst hcs
  exact searchFrom_append pre _ (matchHere_complete X Y post hX hY dX dY)

/-- The match is `null` exactly when the text has no occurrence of the pattern. -/
theorem versionMatch_eq_none_iff (s : String) :
    versionMatch s = none ↔ ¬ HasVersionPattern s.data := by
  unfold versionMatch
  constructor
  · intro h hp
    exact searchFrom_complete _ hp h
  · intro h
    cases hs : searchFrom s.data with
    | none => rfl
    | some r =>
      obtain ⟨X, Y⟩ := r
      obtain ⟨pre, post, hp⟩ := searchFrom_sound _ X Y hs
      exact absurd ⟨pre, X, Y, post, hp⟩ h

/-! ## Traces of the whole run -/

/-- The effects of the script in terms of those of its two parts. -/
theorem checkEnv_trace (env : Env) :
    (checkEnv env).trace =
      startLine :: (rustCheck env).trace ++
        match (rustCheck env).step with
        | .done _ =>
          (if env.platform = "win32" then (buildToolsCheck env).trace else []) ++ [successLine]
        | _ => [] := by
  unfold checkEnv startLine successLine
  by_cases hw : env.platform = "win32" <;>
    cases hr : (rustCheck env).step <;>
      simp [hw, hr, consoleLog, buildToolsCheck_done]

/-- The effects of the build-tools block in terms of those of the strategies. -/
theorem buildToolsCheck_trace (env : Env) (a c : Bool)
    (ha : (strategyA env).step = .done a) (hc : (strategyC env).step = .done c) :
    (buildToolsCheck env).trace =
      checkingLine :: (strategyA env).trace ++
        if a then [passedLine]
        else (scanPaths env commonPaths).trace ++
          if commonPaths.any env.existsSync then [passedLine]
          else (strategyC env).trace ++ if c then [passedLine] else warningLines := by
  unfold buildToolsCheck checkingLine passedLine warningLines
  cases a <;> cases hb : commonPaths.any env.existsSync <;> cases c <;>
    simp [ha, hb, hc, consoleLog, consoleWarn, scanPaths_step]

/-- Reading the environment prints nothing. -/
theorem envReads_output (env : Env) : (envReads env).filter Event.isOutput = [] := by
  unfold envReads
  repeat' split
  all_goals rfl

/-- Reading the environment probes nothing. -/
theorem envReads_probe (env : Env) : (envReads env).filter Event.isProbe = [] := by
  unfold envReads
  repeat' split
  all_goals rfl

/-- Strategy A leaves `found` false and prints nothing when vswhere finds
nothing. -/
theorem strategyA_nothing (env : Env) (h : VswhereFindsNothing env) :
    (strategyA env).step = .done false ∧ (strategyA env).trace.filter Event.isOutput = [] := by
  rw [strategyA_eq]
  cases hb : programFilesBase env with
  | none => exact ⟨rfl, envReads_output env⟩
  | some b =>
    rcases h b hb with he | ⟨code, hv⟩ | ⟨out, hv, ho⟩
    · simp [he, envReads_output, Event.isOutput]
    · cases he : env.existsSync (vswherePathOf env b) <;>
        simp [he, hv, envReads_output, Event.isOutput]
    · cases he : env.existsSync (vswherePathOf env b) <;>
        simp [he, hv, ho, envReads_output, Event.isOutput]

/-- The output of a run on Windows in which the compiler check passed and
strategies A and B found nothing. -/
theorem output_when_A_B_fail (env : Env) (out : String) (c : Bool)
    (hwin : env.platform = "win32")
    (hexec : env.execSync "rustc --version" = .ok out)
    (hgate : gatePasses (jsTrim out) = true)
    (hA : VswhereFindsNothing env)
    (hB : ∀ p ∈ commonPaths, env.existsSync p = false)
    (hc : (strategyC env).step = .done c) :
    (runTrace env).filter Event.isOutput =
      [startLine, detectedLine (jsTrim out), checkingLine] ++
        (strategyC env).trace.filter Event.isOutput ++
        (if c then [passedLine] else warningLines) ++ [successLine] := by
  obtain ⟨hAs, hAt⟩ := strategyA_nothing env hA
  have hany : commonPaths.any env.existsSync = false := by
    rw [List.any_eq_false]
    intro p hp
    simp [hB p hp]
  have hscan : ((scanPaths env commonPaths).trace).filter Event.isOutput = [] := by
    rw [scanPaths_none env commonPaths hB]
    simp [List.filter_eq_nil_iff, Event.isOutput]
  unfold runTrace
  rw [checkEnv_trace, rustCheck_ok env out hexec, buildToolsCheck_trace env false c hAs hc]
  cases c <;>
    simp [hgate, hwin, hany, hAt, hscan, List.filter_append, startLine, detectedLine, checkingLine,
      warningLines, passedLine, successLine, Event.isOutput, List.filter_cons]

/-- The compiler check completes or exits with status 1. -/
theorem rustCheck_ends (env : Env) :
    (rustCheck env).step = .done () ∨ (rustCheck env).step = .exited 1 := by
  cases h : env.execSync "rustc --version" with
  | threw code => right; rw [rustCheck_threw env code h]
  | ok out =>
    rw [rustCheck_ok env out h]
    cases gatePasses (jsTrim out)
    · right; rfl
    · left; rfl

/-- The environment reads are environment reads. -/
theorem envReads_mem (env : Env) (e : Event) (he : e ∈ envReads env) : ∃ n, e = .readEnv n := by
  unfold envReads at he
  split at he
  · split at he
    · simp at he; exact ⟨_, he⟩
    · simp at he; rcases he with he | he <;> exact ⟨_, he⟩
  · simp at he; rcases he with he | he <;> exact ⟨_, he⟩

/-- The effects of strategy A are environment reads, the two vswhere probes
and log lines. -/
theorem strategyA_events (env : Env) (e : Event) (he : e ∈ (strategyA env).trace) :
    (∃ n, e = .readEnv n) ∨
    (∃ b, programFilesBase env = some b ∧
      (e = .existsSync (vswherePathOf env b) ∨
       e = .execSync (vswhereCmd (vswherePathOf env b)))) ∨
    (∃ m, e = .log m) := by
  rw [strategyA_eq] at he
  cases hb : programFilesBase env with
  | none =>
    rw [hb] at he
    exact Or.inl (envReads_mem env e he)
  | some b =>
    rw [hb] at he
    simp only at he
    have aux : ∀ l : List Event, e ∈ envReads env ++ l →
        (∀ x ∈ l, x = .existsSync (vswherePathOf env b) ∨
          x = .execSync (vswhereCmd (vswherePathOf env b)) ∨ ∃ m, x = .log m) →
        (∃ n, e = .readEnv n) ∨
        (∃ b2, some b = some b2 ∧
          (e = .existsSync (vswherePathOf env b2) ∨
           e = .execSync (vswhereCmd (vswherePathOf env b2)))) ∨
        (∃ m, e = .log m) := by
      intro l hl hall
      rcases List.mem_append.1 hl with h | h
      · exact Or.inl (envReads_mem env e h)
      · rcases hall e h with h | h | h
        · exact Or.inr (Or.inl ⟨b, rfl, Or.inl h⟩)
        · exact Or.inr (Or.inl ⟨b, rfl, Or.inr h⟩)
        · exact Or.inr (Or.inr h)
    split at he
    · split at he
      · split at he
        · exact aux _ he (by simp)
        · exact aux _ he (by simp)
      · exact aux _ he (by simp)
    · exact aux _ he (by simp)

/-- The effects of strategy C are the `cl` probe and its log line. -/
theorem strategyC_events (env : Env) (e : Event) (he : e ∈ (strategyC env).trace) :
    e = .execSync "cl" ∨ e = .log "通过 PATH 检测到 cl.exe (MSVC)" := by
  rw [strategyC_eq] at he
  split at he
  · simp at he; exact Or.inl he
  · split at he
    · simpa using he
    · simp at he; exact Or.inl he

/-- The build-tools block never calls `console.error`. -/
theorem buildToolsCheck_no_error (env : Env) (msg : String) :
    Event.error msg ∉ (buildToolsCheck env).trace := by
  obtain ⟨a, ha⟩ := strategyA_done env
  obtain ⟨c, hc⟩ := strategyC_done env
  rw [buildToolsCheck_trace env a c ha hc]
  have hA : Event.error msg ∉ (strategyA env).trace := by
    intro h
    rcases strategyA_events env _ h with ⟨n, h⟩ | ⟨b, _, h | h⟩ | ⟨m, h⟩ <;> cases h
  have hB : Event.error msg ∉ (scanPaths env commonPaths).trace := by
    intro h
    rcases scanPaths_probe env _ _ h with ⟨p, _, h⟩ | ⟨p, _, h⟩ <;> cases h
  have hC : Event.error msg ∉ (strategyC env).trace := by
    intro h
    rcases strategyC_events env _ h with h | h <;> cases h
  cases a <;> cases commonPaths.any env.existsSync <;> cases c <;>
    simp [hA, hB, hC, checkingLine, passedLine, warningLines]

/-- The vswhere command line is not the command `cl`. -/
theorem vswhereCmd_ne_cl (p : String) : vswhereCmd p ≠ "cl" := by
  intro h
  have h2 := congrArg String.length h
  unfold vswhereCmd at h2
  simp only [String.length_append] at h2
  have h3 : "\"".length = 1 := rfl
  have h5 : "cl".length = 2 := rfl
  have h4 : 2 ≤ ("\" -latest -products * -requires Microsoft.VisualStudio.Component.VC.Tools.x86.x64 -property installationPath").length := by
    decide
  omega

/-- Strategy C reports found only from its `catch` branch. -/
theorem strategyC_step_iff (env : Env) :
    (strategyC env).step = .done true ↔
      ∃ code, env.execSync "cl" = .threw code ∧ code ≠ some "ENOENT" := by
  rw [strategyC_eq]
  cases h : env.execSync "cl" with
  | ok o => simp
  | threw code =>
    by_cases hc : code = some "ENOENT" <;> simp [hc]

/-- Strategy A when vswhere exists, runs and prints text that is not blank. -/
theorem strategyA_reports (env : Env) (b out : String)
    (hb : programFilesBase env = some b)
    (hex : env.existsSync (vswherePathOf env b) = true)
    (hrun : env.execSync (vswhereCmd (vswherePathOf env b)) = .ok out)
    (hout : jsTrim out ≠ "") :
    strategyA env = ⟨envReads env ++ [.existsSync (vswherePathOf env b),
      .execSync (vswhereCmd (vswherePathOf env b)),
      .log ("通过 vswhere 检测到 VS Build Tools: " ++ jsTrim out)], .done true⟩ := by
  rw [strategyA_eq, hb]
  simp [hex, hrun, hout]

/-- The probes of strategy C are the one execution of `cl`. -/
theorem strategyC_probes (env : Env) :
    (strategyC env).trace.filter Event.isProbe = [.execSync "cl"] := by
  rw [strategyC_eq]
  repeat' split
  all_goals rfl

/-- Without the vswhere executable strategy A finds nothing. -/
theorem bareWindowsEnv_nothing (cl : ExecResult) : VswhereFindsNothing (bareWindowsEnv cl) :=
  fun _ _ => Or.inl rfl

/-- None of the fixed directories exists in the bare environment. -/
theorem bareWindowsEnv_no_path (cl : ExecResult) :
    ∀ p ∈ commonPaths, (bareWindowsEnv cl).existsSync p = false :=
  fun _ _ => rfl

/-! ## The claims -/

/-- Claim C1: when `rustc --version` runs and its trimmed output matches the
pattern with groups `X` and `Y`, these are non-empty runs of decimal digits
and the run ends with exit status 0 if `X > 1 ∨ (X = 1 ∧ Y ≥ 70)` and with
exit status 1 otherwise, whatever the platform and the build-tools probes
are. -/
theorem version_gate (env : Env) (out : String) (X Y : List Char)
    (hexec : env.execSync "rustc --version" = .ok out)
    (hmatch : versionMatch (jsTrim out) = some (X, Y)) :
    (X ≠ [] ∧ Y ≠ [] ∧ (∀ c ∈ X, c.isDigit = true) ∧ (∀ c ∈ Y, c.isDigit = true)) ∧
    runEnd env =
      if parseInt X > 1 ∨ (parseInt X = 1 ∧ parseInt Y ≥ 70) then .exit 0 else .exit 1 := by
  constructor
  · obtain ⟨_, _, _, h⟩ := searchFrom_sound _ X Y hmatch
    exact h
  unfold runEnd
  rw [checkEnv_step, rustCheck_ok env out hexec]
  unfold gatePasses
  rw [hmatch]
  by_cases h : parseInt X > 1 ∨ (parseInt X = 1 ∧ parseInt Y ≥ 70)
  · have ht := (tooOld_eq_false_iff _ _).2 h
    simp [ht, h, terminationOf]
  · have ht : tooOld (parseInt X) (parseInt Y) = true := by
      cases hh : tooOld (parseInt X) (parseInt Y)
      · exact absurd ((tooOld_eq_false_iff _ _).1 hh) h
      · rfl
    simp [ht, h, terminationOf]

/-- The three version strings of claim C1: 1.69.0 fails, 1.70.0 and 2.0.0 pass. -/
theorem version_gate_witness :
    runEnd (sampleEnv (.ok "rustc 1.69.0") "linux" none none [] (.threw none) (.threw none))
        = .exit 1 ∧
    runEnd (sampleEnv (.ok "rustc 1.70.0") "win32" none none [] (.threw none)
        (.threw (some "ENOENT"))) = .exit 0 ∧
    runEnd (sampleEnv (.ok "rustc 2.0.0") "darwin" none none [] (.threw none) (.threw none))
        = .exit 0 :=
  ⟨(version_gate _ "rustc 1.69.0" "1".data "69".data rfl (by decide)).2.trans (by decide),
   (version_gate _ "rustc 1.70.0" "1".data "70".data rfl (by decide)).2.trans (by decide),
   (version_gate _ "rustc 2.0.0" "2".data "0".data rfl (by decide)).2.trans (by decide)⟩

/-- Claim C2: when `rustc --version` throws, on every platform and with every
state of the environment, filesystem and `cl`, the run ends with exit status 1
after exactly the start line, the `rustc` probe and the two guidance lines: no
existence check, no other command and no final success message. -/
theorem rustc_unavailable_exits (env : Env) (code : Option String)
    (h : env.execSync "rustc --version" = .threw code) :
    runEnd env = .exit 1 ∧
    runTrace env = [startLine, .execSync "rustc --version",
      .log "未检测到 Rust，尝试自动安装...", .log "请访问 https://sh.rustup.rs 安装 Rust"] ∧
    (∀ p, Event.existsSync p ∉ runTrace env) ∧
    (∀ cmd, Event.execSync cmd ∈ runTrace env → cmd = "rustc --version") ∧
    successLine ∉ runTrace env := by
  have ht : runTrace env = [startLine, .execSync "rustc --version",
      .log "未检测到 Rust，尝试自动安装...", .log "请访问 https://sh.rustup.rs 安装 Rust"] := by
    unfold runTrace
    rw [checkEnv_trace, rustCheck_threw env code h]
    rfl
  refine ⟨?_, ht, ?_, ?_, ?_⟩
  · unfold runEnd
    rw [checkEnv_step, rustCheck_threw env code h]
    rfl
  · intro p
    rw [ht]
    simp [startLine]
  · intro cmd
    rw [ht]
    simp [startLine]
  · rw [ht]
    simp [startLine, successLine]

/-- A Windows machine without `rustc` exits with status 1. -/
theorem rustc_unavailable_exits_witness :
    runEnd (sampleEnv (.threw none) "win32" (some "C:\\Program Files (x86)") none
      ["C:\\Program Files\\Microsoft Visual Studio\\2022\\Community"] (.threw none) (.ok ""))
      = .exit 1 :=
  (rustc_unavailable_exits _ none rfl).1

/-- Claim C3: on Windows with the compiler check passed, when vswhere finds
nothing, none of the six fixed directories exists and `cl` fails with
`ENOENT`, the output is the start line, the detected-Rust line, the
announcement, the three warning lines and the final success line; the
build-tools-passed message is not printed and the exit status is 0. -/
theorem all_strategies_fail_warns (env : Env) (out : String)
    (hwin : env.platform = "win32")
    (hexec : env.execSync "rustc --version" = .ok out)
    (hgate : gatePasses (jsTrim out) = true)
    (hA : VswhereFindsNothing env)
    (hB : ∀ p ∈ commonPaths, env.existsSync p = false)
    (hC : env.execSync "cl" = .threw (some "ENOENT")) :
    (runTrace env).filter Event.isOutput =
      [startLine, detectedLine (jsTrim out), checkingLine] ++ warningLines ++ [successLine] ∧
    passedLine ∉ runTrace env ∧
    runEnd env = .exit 0 := by
  have hc : strategyC env = ⟨[.execSync "cl"], .done false⟩ := by
    rw [strategyC_eq, hC]; simp
  have ho := output_when_A_B_fail env out false hwin hexec hgate hA hB (by rw [hc])
  rw [hc] at ho
  have ho2 : (runTrace env).filter Event.isOutput =
      [startLine, detectedLine (jsTrim out), checkingLine] ++ warningLines ++ [successLine] := by
    rw [ho]; simp [Event.isOutput]
  refine ⟨ho2, ?_, ?_⟩
  · intro h
    have hm : passedLine ∈ (runTrace env).filter Event.isOutput := List.mem_filter.2 ⟨h, rfl⟩
    rw [ho2] at hm
    simp [passedLine, startLine, detectedLine, checkingLine, warningLines, successLine] at hm
    have h2 := congrArg String.data hm
    rw [String.data_append] at h2
    exact absurd h2 (by simp)
  · unfold runEnd
    rw [checkEnv_step, rustCheck_ok env out hexec]
    simp [hgate, terminationOf]

/-- A Windows machine with nothing installed but the compiler warns and exits
with status 0. -/
theorem all_strategies_fail_warns_witness :
    (runTrace (bareWindowsEnv (.threw (some "ENOENT")))).filter Event.isOutput =
      [startLine, detectedLine "rustc 1.75.0 (82e1608df 2023-12-21)", checkingLine] ++
        warningLines ++ [successLine] ∧
    runEnd (bareWindowsEnv (.threw (some "ENOENT"))) = .exit 0 :=
  have h := all_strategies_fail_warns (bareWindowsEnv (.threw (some "ENOENT")))
    "rustc 1.75.0 (82e1608df 2023-12-21)\n" rfl rfl (by decide)
    (bareWindowsEnv_nothing _) (bareWindowsEnv_no_path _) rfl
  ⟨h.1, h.2.2⟩

/-- Claim C4: when strategies A and B found nothing and the `cl` probe throws,
the code `ENOENT` leaves the `found` flag false and the warning is printed,
while any other code, or none, sets the flag and the build-tools-passed
message is printed instead. -/
theorem cl_error_code_decides (env : Env) (out : String) (code : Option String)
    (hwin : env.platform = "win32")
    (hexec : env.execSync "rustc --version" = .ok out)
    (hgate : gatePasses (jsTrim out) = true)
    (hA : VswhereFindsNothing env)
    (hB : ∀ p ∈ commonPaths, env.existsSync p = false)
    (hC : env.execSync "cl" = .threw code) :
    (code = some "ENOENT" →
      (strategyC env).step = .done false ∧
      (runTrace env).filter Event.isOutput =
        [startLine, detectedLine (jsTrim out), checkingLine] ++ warningLines ++ [successLine]) ∧
    (code ≠ some "ENOENT" →
      (strategyC env).step = .done true ∧
      (runTrace env).filter Event.isOutput =
        [startLine, detectedLine (jsTrim out), checkingLine,
          .log "通过 PATH 检测到 cl.exe (MSVC)", passedLine, successLine]) := by
  constructor
  · intro hcode
    have hc : strategyC env = ⟨[.execSync "cl"], .done false⟩ := by
      rw [strategyC_eq, hC]; simp [hcode]
    have ho := output_when_A_B_fail env out false hwin hexec hgate hA hB (by rw [hc])
    rw [hc] at ho
    refine ⟨by rw [hc], ?_⟩
    rw [ho]; simp [Event.isOutput]
  · intro hcode
    have hc : strategyC env
        = ⟨[.execSync "cl", .log "通过 PATH 检测到 cl.exe (MSVC)"], .done true⟩ := by
      rw [strategyC_eq, hC]; simp [hcode]
    have ho := output_when_A_B_fail env out true hwin hexec hgate hA hB (by rw [hc])
    rw [hc] at ho
    refine ⟨by rw [hc], ?_⟩
    rw [ho]; simp [Event.isOutput]

/-- The codes `ENOENT`, none and `EACCES` give not found, found and found. -/
theorem cl_error_code_decides_witness :
    (strategyC (bareWindowsEnv (.threw (some "ENOENT")))).step = .done false ∧
    (strategyC (bareWindowsEnv (.threw none))).step = .done true ∧
    (strategyC (bareWindowsEnv (.threw (some "EACCES")))).step = .done true :=
  ⟨((cl_error_code_decides (bareWindowsEnv (.threw (some "ENOENT")))
      "rustc 1.75.0 (82e1608df 2023-12-21)\n" (some "ENOENT") rfl rfl (by decide)
      (bareWindowsEnv_nothing _) (bareWindowsEnv_no_path _) rfl).1 rfl).1,
   ((cl_error_code_decides (bareWindowsEnv (.threw none))
      "rustc 1.75.0 (82e1608df 2023-12-21)\n" none rfl rfl (by decide)
      (bareWindowsEnv_nothing _) (bareWindowsEnv_no_path _) rfl).2 (by decide)).1,
   ((cl_error_code_decides (bareWindowsEnv (.threw (some "EACCES")))
      "rustc 1.75.0 (82e1608df 2023-12-21)\n" (some "EACCES") rfl rfl (by decide)
      (bareWindowsEnv_nothing _) (bareWindowsEnv_no_path _) rfl).2 (by decide)).1⟩

/-- Claim C5: on Windows with the compiler check passed, (1) when vswhere
reports a path the probes of the whole run are the `rustc` probe and the two
vswhere probes, in that order, so no fixed directory is checked and `cl` is
never executed; (2) whenever one of the six fixed directories exists, `cl` is
never executed; (3) when strategies A and B find nothing the probes come in
the order A, B, C: those of strategy A, the six directories in list order,
then `cl`. -/
theorem strategies_short_circuit (env : Env) :
    (∀ out b vout, env.platform = "win32" →
      env.execSync "rustc --version" = .ok out →
      gatePasses (jsTrim out) = true →
      programFilesBase env = some b →
      env.existsSync (vswherePathOf env b) = true →
      env.execSync (vswhereCmd (vswherePathOf env b)) = .ok vout →
      jsTrim vout ≠ "" →
      (runTrace env).filter Event.isProbe =
        [.execSync "rustc --version", .existsSync (vswherePathOf env b),
         .execSync (vswhereCmd (vswherePathOf env b))] ∧
      Event.execSync "cl" ∉ runTrace env) ∧
    ((∃ p ∈ commonPaths, env.existsSync p = true) → Event.execSync "cl" ∉ runTrace env) ∧
    (∀ out, env.platform = "win32" →
      env.execSync "rustc --version" = .ok out →
      gatePasses (jsTrim out) = true →
      VswhereFindsNothing env →
      (∀ p ∈ commonPaths, env.existsSync p = false) →
      (runTrace env).filter Event.isProbe =
        .execSync "rustc --version" :: ((strategyA env).trace.filter Event.isProbe ++
          commonPaths.map Event.existsSync ++ [.execSync "cl"])) := by
  refine ⟨?_, ?_, ?_⟩
  · intro out b vout hwin hexec hgate hb hex hrun hout
    have hA := strategyA_reports env b vout hb hex hrun hout
    obtain ⟨c, hc⟩ := strategyC_done env
    have hp : (runTrace env).filter Event.isProbe =
        [.execSync "rustc --version", .existsSync (vswherePathOf env b),
         .execSync (vswhereCmd (vswherePathOf env b))] := by
      unfold runTrace
      rw [checkEnv_trace, rustCheck_ok env out hexec,
        buildToolsCheck_trace env true c (by rw [hA]) hc, hA]
      simp [hgate, hwin, List.filter_append, List.filter_cons, envReads_probe, Event.isProbe,
        startLine, checkingLine, passedLine, successLine]
    refine ⟨hp, ?_⟩
    intro h
    have hm : Event.execSync "cl" ∈ (runTrace env).filter Event.isProbe :=
      List.mem_filter.2 ⟨h, rfl⟩
    rw [hp] at hm
    simp at hm
    exact vswhereCmd_ne_cl _ hm.symm
  · rintro ⟨p, hp, hpe⟩
    have hany : commonPaths.any env.existsSync = true := List.any_eq_true.2 ⟨p, hp, hpe⟩
    have hA : Event.execSync "cl" ∉ (strategyA env).trace := by
      intro h
      rcases strategyA_events env _ h with ⟨n, h⟩ | ⟨b, _, h | h⟩ | ⟨m, h⟩
      · cases h
      · cases h
      · simp only [Event.execSync.injEq] at h
        exact vswhereCmd_ne_cl _ h.symm
      · cases h
    have hB : Event.execSync "cl" ∉ (scanPaths env commonPaths).trace := by
      intro h
      rcases scanPaths_probe env _ _ h with ⟨p, _, h⟩ | ⟨p, _, h⟩ <;> cases h
    have hbt : Event.execSync "cl" ∉ (buildToolsCheck env).trace := by
      obtain ⟨a, ha⟩ := strategyA_done env
      obtain ⟨c, hc⟩ := strategyC_done env
      rw [buildToolsCheck_trace env a c ha hc]
      cases a <;> simp [hany, hA, hB, checkingLine, passedLine]
    unfold runTrace
    rw [checkEnv_trace]
    cases hr : env.execSync "rustc --version" with
    | threw code =>
      rw [rustCheck_threw env code hr]
      simp [startLine]
    | ok out =>
      rw [rustCheck_ok env out hr]
      cases hg : gatePasses (jsTrim out) <;>
        by_cases hw : env.platform = "win32" <;>
          simp [hw, hbt, startLine, successLine]
  · intro out hwin hexec hgate hA hB
    obtain ⟨hAs, _⟩ := strategyA_nothing env hA
    obtain ⟨c, hc⟩ := strategyC_done env
    have hany : commonPaths.any env.existsSync = false := by
      rw [List.any_eq_false]
      intro p hp
      simp [hB p hp]
    have hscan : ((scanPaths env commonPaths).trace).filter Event.isProbe
        = commonPaths.map Event.existsSync := by
      rw [scanPaths_none env commonPaths hB]
      rfl
    unfold runTrace
    rw [checkEnv_trace, rustCheck_ok env out hexec, buildToolsCheck_trace env false c hAs hc]
    cases c <;>
      simp [hgate, hwin, hany, hscan, strategyC_probes, List.filter_append, List.filter_cons,
        Event.isProbe, startLine, detectedLine, checkingLine, warningLines, passedLine,
        successLine]

/-- With vswhere reporting a path only the vswhere probes follow `rustc`; with
a blank vswhere output and an existing directory `cl` is not run; with nothing
installed the probes are vswhere, the six directories, then `cl`. -/
theorem strategies_short_circuit_witness :
    (runTrace (vswhereEnv "C:\\VS\\2022\\BuildTools\r\n")).filter Event.isProbe =
      [.execSync "rustc --version",
       .existsSync "C:\\Program Files (x86)\\Microsoft Visual Studio\\Installer\\vswhere.exe",
       .execSync (vswhereCmd
         "C:\\Program Files (x86)\\Microsoft Visual Studio\\Installer\\vswhere.exe")] ∧
    Event.execSync "cl" ∉ runTrace (vswhereEnv " \n") ∧
    (runTrace (bareWindowsEnv (.threw none))).filter Event.isProbe =
      .execSync "rustc --version" ::
      .existsSync "C:\\Program Files (x86)\\Microsoft Visual Studio\\Installer\\vswhere.exe" ::
      (commonPaths.map Event.existsSync ++ [.execSync "cl"]) :=
  ⟨((strategies_short_circuit (vswhereEnv "C:\\VS\\2022\\BuildTools\r\n")).1
      "rustc 1.75.0 (82e1608df 2023-12-21)\n" "C:\\Program Files (x86)"
      "C:\\VS\\2022\\BuildTools\r\n" rfl rfl (by decide) rfl (by decide) rfl (by decide)).1,
   (strategies_short_circuit (vswhereEnv " \n")).2.1
      ⟨"C:\\Program Files\\Microsoft Visual Studio\\2022\\Community", by decide, by decide⟩,
   ((strategies_short_circuit (bareWindowsEnv (.threw none))).2.2
      "rustc 1.75.0 (82e1608df 2023-12-21)\n" rfl rfl (by decide)
      (bareWindowsEnv_nothing _) (bareWindowsEnv_no_path _)).trans (by rfl)⟩

/-- Claim C6: on a platform other than `win32`, with the compiler check
passed, the run performs exactly four effects (the start line, the `rustc`
probe, the detected-Rust line and the final success line) and ends with exit
status 0: no environment read, no existence check, no vswhere or `cl`, no
warning and no build-tools-passed message. -/
theorem other_platform_skips_detection (env : Env) (out : String)
    (hplat : env.platform ≠ "win32")
    (hexec : env.execSync "rustc --version" = .ok out)
    (hgate : gatePasses (jsTrim out) = true) :
    runTrace env =
      [startLine, .execSync "rustc --version", detectedLine (jsTrim out), successLine] ∧
    runEnd env = .exit 0 := by
  constructor
  · unfold runTrace
    rw [checkEnv_trace, rustCheck_ok env out hexec]
    simp [hgate, hplat, detectedLine]
  · unfold runEnd
    rw [checkEnv_step, rustCheck_ok env out hexec]
    simp [hgate, terminationOf]

/-- A Linux run whose probes would all succeed performs none of them. -/
theorem other_platform_skips_detection_witness :
    runTrace (sampleEnv (.ok "rustc 1.75.0 (82e1608df 2023-12-21)\n") "linux"
        (some "C:\\Program Files (x86)") none
        ["C:\\Program Files\\Microsoft Visual Studio\\2022\\Community"] (.ok "C:\\VS") (.ok ""))
      = [startLine, .execSync "rustc --version",
          detectedLine "rustc 1.75.0 (82e1608df 2023-12-21)", successLine] :=
  (other_platform_skips_detection _ "rustc 1.75.0 (82e1608df 2023-12-21)\n"
    (by decide) rfl (by decide)).1

/-- Counterexample to claim C7 as stated: vswhere exists and prints the
non-empty text of a blank and a line break, yet the `found` flag stays false
and strategy B goes on to check the fixed directories. -/
theorem blank_vswhere_output_not_found :
    (vswhereEnv " \n").existsSync
        "C:\\Program Files (x86)\\Microsoft Visual Studio\\Installer\\vswhere.exe" = true ∧
    (vswhereEnv " \n").execSync (vswhereCmd
        "C:\\Program Files (x86)\\Microsoft Visual Studio\\Installer\\vswhere.exe") = .ok " \n" ∧
    (" \n" : String) ≠ "" ∧
    (strategyA (vswhereEnv " \n")).step = .done false ∧
    (runTrace (vswhereEnv " \n")).filter Event.isProbe =
      [.execSync "rustc --version",
       .existsSync "C:\\Program Files (x86)\\Microsoft Visual Studio\\Installer\\vswhere.exe",
       .execSync (vswhereCmd
         "C:\\Program Files (x86)\\Microsoft Visual Studio\\Installer\\vswhere.exe"),
       .existsSync "C:\\Program Files (x86)\\Microsoft Visual Studio\\2022\\BuildTools",
       .existsSync "C:\\Program Files (x86)\\Microsoft Visual Studio\\2019\\BuildTools",
       .existsSync "C:\\Program Files (x86)\\Microsoft Visual Studio\\2017\\BuildTools",
       .existsSync "C:\\Program Files\\Microsoft Visual Studio\\2022\\Community"] := by
  refine ⟨by decide, by decide, by decide, by decide, by rfl⟩

/-- Claim C7, as amended: in strategy A, when the vswhere executable exists
and runs without error, any output that is non-empty after trimming counts as
success: the `found` flag becomes true and the build-tools block performs
nothing of strategies B and C (its effects are the announcement, the
environment reads, the two vswhere probes, the vswhere line and the
build-tools-passed line). -/
theorem vswhere_trimmed_output_found (env : Env) (b out : String)
    (hb : programFilesBase env = some b)
    (hex : env.existsSync (vswherePathOf env b) = true)
    (hrun : env.execSync (vswhereCmd (vswherePathOf env b)) = .ok out)
    (hout : jsTrim out ≠ "") :
    (strategyA env).step = .done true ∧
    (buildToolsCheck env).trace =
      checkingLine :: envReads env ++
        [.existsSync (vswherePathOf env b), .execSync (vswhereCmd (vswherePathOf env b)),
         .log ("通过 vswhere 检测到 VS Build Tools: " ++ jsTrim out), passedLine] := by
  have hA := strategyA_reports env b out hb hex hrun hout
  obtain ⟨c, hc⟩ := strategyC_done env
  constructor
  · rw [hA]
  · rw [buildToolsCheck_trace env true c (by rw [hA]) hc, hA]
    simp

/-- An installation path followed by a line break is a success of strategy A. -/
theorem vswhere_trimmed_output_found_witness :
    (strategyA (vswhereEnv "C:\\VS\\2022\\BuildTools\r\n")).step = .done true :=
  (vswhere_trimmed_output_found (vswhereEnv "C:\\VS\\2022\\BuildTools\r\n")
    "C:\\Program Files (x86)" "C:\\VS\\2022\\BuildTools\r\n" rfl (by decide) rfl (by decide)).1

/-- Claim C8: for every outcome of the three commands, every state of the
environment variables (both program-files variables unset included) and of
the filesystem, the run ends with exit status 0 or 1, never on an uncaught
exception. -/
theorem no_uncaught_error (env : Env) : runEnd env = .exit 0 ∨ runEnd env = .exit 1 := by
  unfold runEnd
  rw [checkEnv_step]
  rcases rustCheck_ends env with h | h <;> rw [h]
  · left; rfl
  · right; rfl

/-- Claim C9: when `rustc --version` runs and its trimmed output contains no
occurrence of `rustc <digits>.<digits>`, the compiler check completes normally
after the probe and the detected-Rust line, no error line is printed anywhere
in the run, the final success message is printed and the exit status is 0. -/
theorem unmatched_version_skips_gate (env : Env) (out : String)
    (hexec : env.execSync "rustc --version" = .ok out)
    (hno : ¬ HasVersionPattern (jsTrim out).data) :
    rustCheck env = ⟨[.execSync "rustc --version", detectedLine (jsTrim out)], .done ()⟩ ∧
    (∀ msg, Event.error msg ∉ runTrace env) ∧
    successLine ∈ runTrace env ∧
    runEnd env = .exit 0 := by
  have hm : versionMatch (jsTrim out) = none := (versionMatch_eq_none_iff _).2 hno
  have hg : gatePasses (jsTrim out) = true := by
    unfold gatePasses
    rw [hm]
  have hr : rustCheck env
      = ⟨[.execSync "rustc --version", detectedLine (jsTrim out)], .done ()⟩ := by
    rw [rustCheck_ok env out hexec]
    simp [hg, detectedLine]
  refine ⟨hr, ?_, ?_, ?_⟩
  · intro msg
    unfold runTrace
    rw [checkEnv_trace, hr]
    have := buildToolsCheck_no_error env msg
    by_cases hw : env.platform = "win32" <;>
      simp [hw, this, startLine, detectedLine, successLine]
  · unfold runTrace
    rw [checkEnv_trace, hr]
    simp
  · unfold runEnd
    rw [checkEnv_step, hr]
    rfl

/-- The outputs `rustc unknown`, `rustc` and the empty output all end in exit
status 0. -/
theorem unmatched_version_skips_gate_witness :
    runEnd (sampleEnv (.ok "rustc unknown\n") "win32" none none [] (.threw none)
      (.threw (some "ENOENT"))) = .exit 0 ∧
    runEnd (sampleEnv (.ok "rustc") "linux" none none [] (.threw none) (.threw none)) = .exit 0 ∧
    runEnd (sampleEnv (.ok "") "linux" none none [] (.threw none) (.threw none)) = .exit 0 :=
  ⟨(unmatched_version_skips_gate _ "rustc unknown\n" rfl
      ((versionMatch_eq_none_iff _).1 (by decide))).2.2.2,
   (unmatched_version_skips_gate _ "rustc" rfl
      ((versionMatch_eq_none_iff _).1 (by decide))).2.2.2,
   (unmatched_version_skips_gate _ "" rfl
      ((versionMatch_eq_none_iff _).1 (by decide))).2.2.2⟩

/-- Claim C10: strategy C sets the `found` flag exactly when `cl` throws an
error whose code is not `ENOENT`; so when `cl` runs without error, and
strategies A and B found nothing, the flag stays false, the warning is printed
and the build-tools-passed message is not. -/
theorem cl_success_not_found (env : Env) :
    ((strategyC env).step = .done true ↔
      ∃ code, env.execSync "cl" = .threw code ∧ code ≠ some "ENOENT") ∧
    (∀ out clOut, env.platform = "win32" →
      env.execSync "rustc --version" = .ok out →
      gatePasses (jsTrim out) = true →
      VswhereFindsNothing env →
      (∀ p ∈ commonPaths, env.existsSync p = false) →
      env.execSync "cl" = .ok clOut →
      (strategyC env).step = .done false ∧
      (runTrace env).filter Event.isOutput =
        [startLine, detectedLine (jsTrim out), checkingLine] ++ warningLines ++ [successLine] ∧
      passedLine ∉ runTrace env) := by
  refine ⟨strategyC_step_iff env, ?_⟩
  intro out clOut hwin hexec hgate hA hB hC
  have hc : strategyC env = ⟨[.execSync "cl"], .done false⟩ := by
    rw [strategyC_eq, hC]
  have ho := output_when_A_B_fail env out false hwin hexec hgate hA hB (by rw [hc])
  rw [hc] at ho
  have ho2 : (runTrace env).filter Event.isOutput =
      [startLine, detectedLine (jsTrim out), checkingLine] ++ warningLines ++ [successLine] := by
    rw [ho]; simp [Event.isOutput]
  refine ⟨by rw [hc], ho2, ?_⟩
  intro h
  have hm : passedLine ∈ (runTrace env).filter Event.isOutput := List.mem_filter.2 ⟨h, rfl⟩
  rw [ho2] at hm
  simp [passedLine, startLine, detectedLine, checkingLine, warningLines, successLine] at hm
  have h2 := congrArg String.data hm
  rw [String.data_append] at h2
  exact absurd h2 (by simp)

/-- A `cl` that runs successfully still yields the warning. -/
theorem cl_success_not_found_witness :
    (strategyC (bareWindowsEnv (.ok ""))).step = .done false ∧
    (runTrace (bareWindowsEnv (.ok ""))).filter Event.isOutput =
      [startLine, detectedLine "rustc 1.75.0 (82e1608df 2023-12-21)", checkingLine] ++
        warningLines ++ [successLine] :=
  have h := (cl_success_not_found (bareWindowsEnv (.ok ""))).2
    "rustc 1.75.0 (82e1608df 2023-12-21)\n" "" rfl rfl (by decide)
    (bareWindowsEnv_nothing _) (bareWindowsEnv_no_path _) rfl
  ⟨h.1, h.2.1⟩

end CheckEnv
